import Mathlib

/-!
Verification of the retrieval-and-correlation core of the argus-ai repository.

This file gives a shallow embedding, in Lean 4, of the core operations of the
repository and proves (or refutes) the specification's claims about them:

* the relationship-graph materializer
  (`app/services/relacionamento_service.py`, `app/repositories/relacionamento_repo.py`),
* the vector-search queries
  (`app/repositories/ocorrencia_repo.py`, `app/repositories/legislacao_repo.py`),
* the embedding cache (`app/services/embedding_service.py`),
* the generation gateway (`app/services/llm_service.py`),
* the RAG orchestrator (`app/services/rag_service.py`).

Modelling conventions: database tables are lists of rows; SQLAlchemy statements
become pure functions on those lists (the PostgreSQL `INSERT .. ON CONFLICT DO
UPDATE` becomes an explicit conditional update); timestamps and identifiers are
naturals; the embedding vectors are lists of rationals and the external
`pgvector` cosine-distance operator is an abstract function parameter; fallible
operations return `Option`/`Except`.
-/

/-- Row of the `relacionamento_pessoas` table
(`app/models/relacionamento.py`, class `RelacionamentoPessoa`).
The table carries a unique constraint `uq_relacionamento` on
`(pessoa_id_a, pessoa_id_b)` and a check constraint `ck_relacionamento_order`
(`pessoa_id_a < pessoa_id_b`). Timestamps are modelled as naturals. -/
structure RelacionamentoPessoa where
  pessoa_id_a : Nat
  pessoa_id_b : Nat
  frequencia : Nat
  primeira_abordagem_id : Nat
  ultima_abordagem_id : Nat
  primeira_vez : Nat
  ultima_vez : Nat
deriving DecidableEq, Repr

/-- Key predicate of the unique constraint `uq_relacionamento`:
the row's person pair is exactly `(id_a, id_b)`. -/
def keyMatches (id_a id_b : Nat) (e : RelacionamentoPessoa) : Bool :=
  e.pessoa_id_a == id_a && e.pessoa_id_b == id_b

namespace RelacionamentoRepository

/-- Embedding of `RelacionamentoRepository.upsert`
(`app/repositories/relacionamento_repo.py`, lines 36-79).

The source orders the two identifiers (`id_a = min(...)`, `id_b = max(...)`)
and issues `INSERT .. ON CONFLICT (uq_relacionamento) DO UPDATE` setting
`frequencia := frequencia + 1`, `ultima_abordagem_id := abordagem_id`,
`ultima_vez := data_hora`.  On the insert path the database validates the
check constraint `ck_relacionamento_order` (`pessoa_id_a < pessoa_id_b`);
a violating insert fails, which the model renders as `none`. -/
def upsert (db : List RelacionamentoPessoa)
    (pessoa_id_a pessoa_id_b abordagem_id data_hora : Nat) :
    Option (List RelacionamentoPessoa) :=
  if db.any (keyMatches (min pessoa_id_a pessoa_id_b) (max pessoa_id_a pessoa_id_b)) then
    some (db.map fun e =>
      if keyMatches (min pessoa_id_a pessoa_id_b) (max pessoa_id_a pessoa_id_b) e then
        { e with
          frequencia := e.frequencia + 1
          ultima_abordagem_id := abordagem_id
          ultima_vez := data_hora }
      else e)
  else if min pessoa_id_a pessoa_id_b < max pessoa_id_a pessoa_id_b then
    some (db ++ [⟨min pessoa_id_a pessoa_id_b, max pessoa_id_a pessoa_id_b, 1,
      abordagem_id, abordagem_id, data_hora, data_hora⟩])
  else
    none

end RelacionamentoRepository

/-- Embedding of `sorted(set(pessoa_ids))` from
`RelacionamentoService.registrar_vinculo`
(`app/services/relacionamento_service.py`, line 57). -/
def sortedUnique (pessoa_ids : List Nat) : List Nat :=
  List.insertionSort (· ≤ ·) pessoa_ids.dedup

/-- Embedding of `itertools.combinations(l, 2)`: all pairs `(l[i], l[j])`
with `i < j`, in the order the Python iterator produces them. -/
def combinations2 : List Nat → List (Nat × Nat)
  | [] => []
  | x :: xs => xs.map (fun y => (x, y)) ++ combinations2 xs

namespace RelacionamentoService

/-- Embedding of `RelacionamentoService.registrar_vinculo`
(`app/services/relacionamento_service.py`, lines 40-59): deduplicate and sort
the input identifiers, then upsert every 2-combination in order. -/
def registrar_vinculo (pessoa_ids : List Nat) (abordagem_id data_hora : Nat)
    (db : List RelacionamentoPessoa) : Option (List RelacionamentoPessoa) :=
  (combinations2 (sortedUnique pessoa_ids)).foldlM
    (fun st p => RelacionamentoRepository.upsert st p.1 p.2 abordagem_id data_hora) db

end RelacionamentoService

/-- The canonical-ordering invariant of the relationship graph: every stored
edge satisfies `pessoa_id_a < pessoa_id_b` (check constraint
`ck_relacionamento_order` of `app/models/relacionamento.py`). -/
def canonical (db : List RelacionamentoPessoa) : Prop :=
  ∀ e ∈ db, e.pessoa_id_a < e.pessoa_id_b

instance (db : List RelacionamentoPessoa) : Decidable (canonical db) :=
  List.decidableBAll _ db

example :
    RelacionamentoService.registrar_vinculo [2, 1] 100 5 [] =
      some [⟨1, 2, 1, 100, 100, 5, 5⟩] := by decide

example :
    RelacionamentoService.registrar_vinculo [3, 1, 2] 100 5 [] =
      some [⟨1, 2, 1, 100, 100, 5, 5⟩, ⟨1, 3, 1, 100, 100, 5, 5⟩,
        ⟨2, 3, 1, 100, 100, 5, 5⟩] := by decide

example :
    RelacionamentoService.registrar_vinculo [2, 1] 101 9
      [⟨1, 2, 1, 100, 100, 5, 5⟩] = some [⟨1, 2, 2, 100, 101, 5, 9⟩] := by decide

/-- Updating an edge on conflict never changes its person pair. -/
theorem upsert_update_keeps_keys (id_a id_b ab dh : Nat) (e : RelacionamentoPessoa) :
    ((if keyMatches id_a id_b e then
        { e with
          frequencia := e.frequencia + 1
          ultima_abordagem_id := ab
          ultima_vez := dh }
      else e) : RelacionamentoPessoa).pessoa_id_a = e.pessoa_id_a ∧
    ((if keyMatches id_a id_b e then
        { e with
          frequencia := e.frequencia + 1
          ultima_abordagem_id := ab
          ultima_vez := dh }
      else e) : RelacionamentoPessoa).pessoa_id_b = e.pessoa_id_b := by
  by_cases h : keyMatches id_a id_b e <;> simp [h]

/-- A successful upsert preserves the canonical-ordering invariant. -/
theorem upsert_canonical {db db' : List RelacionamentoPessoa} {pa pb ab dh : Nat}
    (h : RelacionamentoRepository.upsert db pa pb ab dh = some db')
    (hcan : canonical db) : canonical db' := by
  unfold RelacionamentoRepository.upsert at h
  split at h
  · obtain rfl := Option.some.inj h
    intro e' he'
    rw [List.mem_map] at he'
    obtain ⟨e, he, rfl⟩ := he'
    have hk := upsert_update_keeps_keys (min pa pb) (max pa pb) ab dh e
    rw [hk.1, hk.2]
    exact hcan e he
  · split at h
    · next hlt =>
      obtain rfl := Option.some.inj h
      intro e' he'
      rcases List.mem_append.mp he' with hin | hin
      · exact hcan e' hin
      · rcases List.mem_singleton.mp hin with rfl
        exact hlt
    · exact absurd h (by simp)

/-- A successful upsert keeps every already-present person pair present. -/
theorem upsert_preserves_pair {db db' : List RelacionamentoPessoa} {pa pb ab dh x y : Nat}
    (h : RelacionamentoRepository.upsert db pa pb ab dh = some db')
    (hex : ∃ e ∈ db, e.pessoa_id_a = x ∧ e.pessoa_id_b = y) :
    ∃ e ∈ db', e.pessoa_id_a = x ∧ e.pessoa_id_b = y := by
  obtain ⟨e, he, hea, heb⟩ := hex
  unfold RelacionamentoRepository.upsert at h
  split at h
  · obtain rfl := Option.some.inj h
    refine ⟨_, List.mem_map_of_mem _ he, ?_⟩
    have hk := upsert_update_keeps_keys (min pa pb) (max pa pb) ab dh e
    rw [hk.1, hk.2]
    exact ⟨hea, heb⟩
  · split at h
    · obtain rfl := Option.some.inj h
      exact ⟨e, List.mem_append_left _ he, hea, heb⟩
    · exact absurd h (by simp)

/-- A successful upsert makes the (canonically ordered) processed pair present. -/
theorem upsert_creates_pair {db db' : List RelacionamentoPessoa} {pa pb ab dh : Nat}
    (h : RelacionamentoRepository.upsert db pa pb ab dh = some db') :
    ∃ e ∈ db', e.pessoa_id_a = min pa pb ∧ e.pessoa_id_b = max pa pb := by
  unfold RelacionamentoRepository.upsert at h
  split at h
  · next hany =>
    obtain ⟨e, he, hkey⟩ := List.any_eq_true.mp hany
    simp only [keyMatches, Bool.and_eq_true, beq_iff_eq] at hkey
    obtain rfl := Option.some.inj h
    refine ⟨_, List.mem_map_of_mem _ he, ?_⟩
    have hk := upsert_update_keeps_keys (min pa pb) (max pa pb) ab dh e
    rw [hk.1, hk.2]
    exact ⟨hkey.1, hkey.2⟩
  · split at h
    · obtain rfl := Option.some.inj h
      exact ⟨_, List.mem_append_right _ (List.mem_singleton.mpr rfl), rfl, rfl⟩
    · exact absurd h (by simp)

/-- Folding upserts over a pair list preserves the canonical-ordering invariant. -/
theorem foldl_upsert_canonical {ab dh : Nat} :
    ∀ (ps : List (Nat × Nat)) (db db' : List RelacionamentoPessoa),
      ps.foldlM (fun st p => RelacionamentoRepository.upsert st p.1 p.2 ab dh) db = some db' →
      canonical db → canonical db'
  | [], db, db', h, hcan => by
    simp only [List.foldlM_nil, pure] at h
    cases h with
    | refl => exact hcan
  | p :: ps, db, db', h, hcan => by
    rw [List.foldlM_cons] at h
    cases hm : RelacionamentoRepository.upsert db p.1 p.2 ab dh with
    | none => rw [hm] at h; exact absurd h (by simp [Bind.bind])
    | some db1 =>
      rw [hm] at h
      simp only [Bind.bind, Option.bind] at h
      exact foldl_upsert_canonical ps db1 db' h (upsert_canonical hm hcan)

/-- Folding upserts over a pair list keeps every present person pair present. -/
theorem foldl_upsert_preserves_pair {ab dh x y : Nat} :
    ∀ (ps : List (Nat × Nat)) (db db' : List RelacionamentoPessoa),
      ps.foldlM (fun st p => RelacionamentoRepository.upsert st p.1 p.2 ab dh) db = some db' →
      (∃ e ∈ db, e.pessoa_id_a = x ∧ e.pessoa_id_b = y) →
      ∃ e ∈ db', e.pessoa_id_a = x ∧ e.pessoa_id_b = y
  | [], db, db', h, hex => by
    simp only [List.foldlM_nil, pure] at h
    cases h with
    | refl => exact hex
  | p :: ps, db, db', h, hex => by
    rw [List.foldlM_cons] at h
    cases hm : RelacionamentoRepository.upsert db p.1 p.2 ab dh with
    | none => rw [hm] at h; exact absurd h (by simp [Bind.bind])
    | some db1 =>
      rw [hm] at h
      simp only [Bind.bind, Option.bind] at h
      exact foldl_upsert_preserves_pair ps db1 db' h (upsert_preserves_pair hm hex)

/-- After a successful fold containing the pair `(u, v)`, the canonically
ordered edge for that pair is present. -/
theorem foldl_upsert_pair_exists {ab dh u v : Nat} :
    ∀ (ps : List (Nat × Nat)) (db db' : List RelacionamentoPessoa),
      (u, v) ∈ ps →
      ps.foldlM (fun st p => RelacionamentoRepository.upsert st p.1 p.2 ab dh) db = some db' →
      ∃ e ∈ db', e.pessoa_id_a = min u v ∧ e.pessoa_id_b = max u v
  | [], _, _, hmem, _ => absurd hmem (List.not_mem_nil _)
  | p :: ps, db, db', hmem, h => by
    rw [List.foldlM_cons] at h
    cases hm : RelacionamentoRepository.upsert db p.1 p.2 ab dh with
    | none => rw [hm] at h; exact absurd h (by simp [Bind.bind])
    | some db1 =>
      rw [hm] at h
      simp only [Bind.bind, Option.bind] at h
      rcases List.mem_cons.mp hmem with heq | hmem'
      · obtain ⟨rfl, rfl⟩ : p.1 = u ∧ p.2 = v := by
          constructor <;> rw [← heq]
        exact foldl_upsert_preserves_pair ps db1 db' h (upsert_creates_pair hm)
      · exact foldl_upsert_pair_exists ps db1 db' hmem' h

/-- Membership in `sortedUnique` is membership in the original list. -/
theorem mem_sortedUnique {l : List Nat} {x : Nat} : x ∈ sortedUnique l ↔ x ∈ l :=
  ((List.perm_insertionSort _ _).mem_iff).trans List.mem_dedup

/-- The deduplicated, sorted identifier list is strictly increasing. -/
theorem sortedUnique_pairwise_lt (l : List Nat) : (sortedUnique l).Pairwise (· < ·) := by
  have hs : (sortedUnique l).Pairwise (· ≤ ·) := List.sorted_insertionSort _ _
  have hn : (sortedUnique l).Pairwise (· ≠ ·) :=
    ((List.perm_insertionSort _ _).nodup_iff).mpr (List.nodup_dedup _)
  exact (hs.and hn).imp fun h => lt_of_le_of_ne h.1 h.2

/-- Every strictly ordered pair of members of a strictly increasing list occurs
among its 2-combinations. -/
theorem mem_combinations2_of_lt :
    ∀ {l : List Nat}, l.Pairwise (· < ·) → ∀ {x y : Nat}, x ∈ l → y ∈ l → x < y →
      (x, y) ∈ combinations2 l := by
  intro l
  induction l with
  | nil => intro _ x y hx _ _; exact absurd hx (List.not_mem_nil _)
  | cons a t ih =>
    intro hpw x y hx hy hlt
    rw [List.pairwise_cons] at hpw
    rcases List.mem_cons.mp hx with rfl | hx'
    · rcases List.mem_cons.mp hy with rfl | hy'
      · exact absurd hlt (lt_irrefl _)
      · exact List.mem_append_left _ (List.mem_map_of_mem _ hy')
    · rcases List.mem_cons.mp hy with rfl | hy'
      · exact absurd hlt (not_lt_of_gt (hpw.1 x hx'))
      · exact List.mem_append_right _ (ih hpw.2 hx' hy' hlt)

/-- C1.  Canonical edge ordering: registering a co-occurrence containing two
distinct identifiers `x ≠ y` (in either input order) leaves the graph state
canonical and yields an edge for the pair with `pessoa_id_a = min x y` and
`pessoa_id_b = max x y`; moreover every single `upsert` preserves the
`pessoa_id_a < pessoa_id_b` invariant. -/
theorem registrar_vinculo_canonical (pessoa_ids : List Nat)
    (x y abordagem_id data_hora : Nat) (db db' : List RelacionamentoPessoa)
    (hx : x ∈ pessoa_ids) (hy : y ∈ pessoa_ids) (hxy : x ≠ y) (hcan : canonical db)
    (hrun : RelacionamentoService.registrar_vinculo pessoa_ids abordagem_id data_hora db
      = some db') :
    canonical db' ∧
      (∃ e ∈ db', e.pessoa_id_a = min x y ∧ e.pessoa_id_b = max x y) ∧
      ∀ (t t' : List RelacionamentoPessoa) (pa pb ab dh : Nat),
        RelacionamentoRepository.upsert t pa pb ab dh = some t' → canonical t → canonical t' := by
  refine ⟨foldl_upsert_canonical _ db db' hrun hcan, ?_,
    fun t t' pa pb ab dh h hc => upsert_canonical h hc⟩
  have hmem : (min x y, max x y) ∈ combinations2 (sortedUnique pessoa_ids) := by
    rcases lt_or_gt_of_ne hxy with hlt | hgt
    · rw [min_eq_left hlt.le, max_eq_right hlt.le]
      exact mem_combinations2_of_lt (sortedUnique_pairwise_lt _)
        (mem_sortedUnique.mpr hx) (mem_sortedUnique.mpr hy) hlt
    · rw [min_eq_right hgt.le, max_eq_left hgt.le]
      exact mem_combinations2_of_lt (sortedUnique_pairwise_lt _)
        (mem_sortedUnique.mpr hy) (mem_sortedUnique.mpr hx) hgt
  have := foldl_upsert_pair_exists _ db db' hmem hrun
  rwa [min_eq_left (min_le_max), max_eq_right (min_le_max)] at this

/-- C1 witness: registering persons `[2, 1]` on an empty graph yields the
canonical edge `(1, 2)`. -/
theorem registrar_vinculo_canonical_witness :
    canonical [(⟨1, 2, 1, 100, 100, 5, 5⟩ : RelacionamentoPessoa)] ∧
      (∃ e ∈ [(⟨1, 2, 1, 100, 100, 5, 5⟩ : RelacionamentoPessoa)],
        e.pessoa_id_a = min 2 1 ∧ e.pessoa_id_b = max 2 1) ∧
      ∀ (t t' : List RelacionamentoPessoa) (pa pb ab dh : Nat),
        RelacionamentoRepository.upsert t pa pb ab dh = some t' → canonical t → canonical t' :=
  registrar_vinculo_canonical [2, 1] 2 1 100 5 []
    [⟨1, 2, 1, 100, 100, 5, 5⟩] (by decide) (by decide) (by decide) (by decide) (by decide)

/-- The number of 2-combinations of a list is `n.choose 2`. -/
theorem combinations2_length : ∀ l : List Nat, (combinations2 l).length = l.length.choose 2
  | [] => rfl
  | x :: xs => by
    simp only [combinations2, List.length_append, List.length_map, combinations2_length xs,
      List.length_cons, Nat.choose_succ_succ, Nat.choose_one_right]

/-- Both components of a 2-combination are members of the underlying list. -/
theorem mem_of_mem_combinations2 :
    ∀ {l : List Nat} {p : Nat × Nat}, p ∈ combinations2 l → p.1 ∈ l ∧ p.2 ∈ l := by
  intro l
  induction l with
  | nil => intro p hp; exact absurd hp (List.not_mem_nil _)
  | cons a t ih =>
    intro p hp
    rcases List.mem_append.mp hp with hmap | hrec
    · obtain ⟨b, hb, rfl⟩ := List.mem_map.mp hmap
      exact ⟨List.mem_cons_self a t, List.mem_cons_of_mem _ hb⟩
    · obtain ⟨h1, h2⟩ := ih hrec
      exact ⟨List.mem_cons_of_mem _ h1, List.mem_cons_of_mem _ h2⟩

/-- Over a strictly increasing list, every 2-combination is strictly ordered. -/
theorem combinations2_lt :
    ∀ {l : List Nat}, l.Pairwise (· < ·) → ∀ p ∈ combinations2 l, p.1 < p.2 := by
  intro l
  induction l with
  | nil => intro _ p hp; exact absurd hp (List.not_mem_nil _)
  | cons a t ih =>
    intro hpw p hp
    rw [List.pairwise_cons] at hpw
    rcases List.mem_append.mp hp with hmap | hrec
    · obtain ⟨b, hb, rfl⟩ := List.mem_map.mp hmap
      exact hpw.1 b hb
    · exact ih hpw.2 p hrec

/-- Over a strictly increasing list, the 2-combinations are pairwise distinct. -/
theorem combinations2_nodup :
    ∀ {l : List Nat}, l.Pairwise (· < ·) → (combinations2 l).Nodup := by
  intro l
  induction l with
  | nil => intro _; exact List.nodup_nil
  | cons a t ih =>
    intro hpw
    rw [List.pairwise_cons] at hpw
    have htn : t.Nodup := hpw.2.imp (fun h => ne_of_lt h)
    refine List.Nodup.append (htn.map fun b1 b2 h => congrArg Prod.snd h) (ih hpw.2) ?_
    intro p hmap hrec
    obtain ⟨b, _, rfl⟩ := List.mem_map.mp hmap
    have : (a, b).1 ∈ t := (mem_of_mem_combinations2 hrec).1
    exact absurd rfl (ne_of_lt (hpw.1 a this))

/-- The pair `(u, v)` has no edge yet in the graph state. -/
def pairAbsent (db : List RelacionamentoPessoa) (p : Nat × Nat) : Prop :=
  ∀ e ∈ db, ¬(e.pessoa_id_a = p.1 ∧ e.pessoa_id_b = p.2)

instance (db : List RelacionamentoPessoa) (p : Nat × Nat) : Decidable (pairAbsent db p) :=
  List.decidableBAll _ db

/-- Upserting an absent, strictly ordered pair takes the insert path and
appends exactly one new edge of weight 1. -/
theorem upsert_fresh {db : List RelacionamentoPessoa} {u v ab dh : Nat}
    (hlt : u < v) (habs : pairAbsent db (u, v)) :
    RelacionamentoRepository.upsert db u v ab dh =
      some (db ++ [⟨u, v, 1, ab, ab, dh, dh⟩]) := by
  have hmin : min u v = u := min_eq_left hlt.le
  have hmax : max u v = v := max_eq_right hlt.le
  have hany : db.any (keyMatches (min u v) (max u v)) = false := by
    rw [List.any_eq_false]
    intro e he
    simp only [keyMatches, hmin, hmax, Bool.and_eq_true, beq_iff_eq, not_and]
    intro h1 h2
    exact habs e he ⟨h1, h2⟩
  unfold RelacionamentoRepository.upsert
  rw [hany]
  simp only [Bool.false_eq_true, if_false, hmin, hmax]
  rw [if_pos hlt]

/-- Folding upserts of strictly ordered, pairwise-distinct, all-absent pairs
succeeds and grows the edge table by exactly the number of pairs. -/
theorem foldl_upsert_count {ab dh : Nat} :
    ∀ (ps : List (Nat × Nat)) (db : List RelacionamentoPessoa),
      (∀ p ∈ ps, p.1 < p.2) → ps.Nodup → (∀ p ∈ ps, pairAbsent db p) →
      ∃ db', ps.foldlM
          (fun st p => RelacionamentoRepository.upsert st p.1 p.2 ab dh) db = some db' ∧
        db'.length = db.length + ps.length
  | [], db, _, _, _ => ⟨db, by simp only [List.foldlM_nil, pure], by simp⟩
  | p :: ps, db, hlt, hnd, habs => by
    have hstep := @upsert_fresh db p.1 p.2 ab dh
      (hlt p (List.mem_cons_self p ps)) (habs p (List.mem_cons_self p ps))
    rw [List.nodup_cons] at hnd
    have habs' : ∀ q ∈ ps, pairAbsent (db ++ [⟨p.1, p.2, 1, ab, ab, dh, dh⟩]) q := by
      intro q hq e he
      rcases List.mem_append.mp he with hin | hin
      · exact habs q (List.mem_cons_of_mem _ hq) e hin
      · rcases List.mem_singleton.mp hin with rfl
        intro hk
        apply hnd.1
        have : p = q := Prod.ext hk.1 hk.2
        rwa [this]
    obtain ⟨db', hfold, hlen⟩ := foldl_upsert_count ps (db ++ [⟨p.1, p.2, 1, ab, ab, dh, dh⟩])
      (fun q hq => hlt q (List.mem_cons_of_mem _ hq)) hnd.2 habs'
    refine ⟨db', ?_, ?_⟩
    · rw [List.foldlM_cons, hstep]
      simpa only [Bind.bind, Option.bind] using hfold
    · rw [hlen]
      simp only [List.length_append, List.length_cons, List.length_nil]
      omega

/-- C2.  Pair-count law: registering one event whose identifier list has `n`
distinct members on an empty graph succeeds and creates exactly
`n * (n - 1) / 2` edges, one upsert per 2-combination of the deduplicated,
sorted identifiers. -/
theorem registrar_vinculo_pair_count (pessoa_ids : List Nat) (abordagem_id data_hora : Nat) :
    ∃ db', RelacionamentoService.registrar_vinculo pessoa_ids abordagem_id data_hora []
        = some db' ∧
      db'.length = pessoa_ids.dedup.length * (pessoa_ids.dedup.length - 1) / 2 ∧
      (combinations2 (sortedUnique pessoa_ids)).length =
        pessoa_ids.dedup.length * (pessoa_ids.dedup.length - 1) / 2 := by
  have hpw := sortedUnique_pairwise_lt pessoa_ids
  have hlen : (sortedUnique pessoa_ids).length = pessoa_ids.dedup.length :=
    (List.perm_insertionSort _ _).length_eq
  have hcount : (combinations2 (sortedUnique pessoa_ids)).length =
      pessoa_ids.dedup.length * (pessoa_ids.dedup.length - 1) / 2 := by
    rw [combinations2_length, hlen, Nat.choose_two_right]
  obtain ⟨db', hfold, hdlen⟩ := @foldl_upsert_count abordagem_id data_hora
    (combinations2 (sortedUnique pessoa_ids)) []
    (combinations2_lt hpw) (combinations2_nodup hpw)
    (fun p _ e he => absurd he (List.not_mem_nil _))
  exact ⟨db', hfold, by rw [hdlen, List.length_nil, Nat.zero_add, hcount], hcount⟩

/-- With two distinct identifiers, a two-person event reduces to a single
upsert of the ordered pair. -/
theorem registrar_vinculo_pair (x y ab t : Nat) (db : List RelacionamentoPessoa) (hxy : x ≠ y) :
    RelacionamentoService.registrar_vinculo [x, y] ab t db =
      RelacionamentoRepository.upsert db (min x y) (max x y) ab t := by
  have hd : ([x, y] : List Nat).dedup = [x, y] := by
    rw [List.dedup_cons_of_not_mem (by simp [hxy])]
    simp
  have hsu : sortedUnique [x, y] = [min x y, max x y] := by
    unfold sortedUnique
    rw [hd]
    rcases lt_or_gt_of_ne hxy with hlt | hgt
    · rw [min_eq_left hlt.le, max_eq_right hlt.le]
      simp [List.insertionSort, List.orderedInsert, hlt.le]
    · rw [min_eq_right hgt.le, max_eq_left hgt.le]
      simp [List.insertionSort, List.orderedInsert, not_le_of_gt hgt]
  rw [RelacionamentoService.registrar_vinculo, hsu]
  show (RelacionamentoRepository.upsert db (min x y) (max x y) ab t).bind _ = _
  cases RelacionamentoRepository.upsert db (min x y) (max x y) ab t <;> rfl

/-- C3.  Upsert idempotent increment with immutable history: registering the
same unordered pair in two different events (in either order) yields an edge
of weight 2 whose first-seen data (`primeira_vez`, `primeira_abordagem_id`)
is that of the first event and whose last-seen data (`ultima_vez`,
`ultima_abordagem_id`) is that of the second. -/
theorem upsert_idempotent_increment (db db1 db2 : List RelacionamentoPessoa)
    (x y ab1 t1 ab2 t2 : Nat) (hxy : x ≠ y)
    (habs : pairAbsent db (min x y, max x y))
    (h1 : RelacionamentoService.registrar_vinculo [x, y] ab1 t1 db = some db1)
    (h2 : RelacionamentoService.registrar_vinculo [y, x] ab2 t2 db1 = some db2) :
    ∃ e ∈ db2, e.pessoa_id_a = min x y ∧ e.pessoa_id_b = max x y ∧
      e.frequencia = 2 ∧ e.primeira_abordagem_id = ab1 ∧ e.primeira_vez = t1 ∧
      e.ultima_abordagem_id = ab2 ∧ e.ultima_vez = t2 := by
  have hlt : min x y < max x y := by
    rcases lt_or_gt_of_ne hxy with h | h
    · simpa [min_eq_left h.le, max_eq_right h.le] using h
    · simpa [min_eq_right h.le, max_eq_left h.le] using h
  rw [registrar_vinculo_pair x y ab1 t1 db hxy, upsert_fresh hlt habs] at h1
  obtain rfl := Option.some.inj h1
  rw [registrar_vinculo_pair y x ab2 t2 _ (Ne.symm hxy), min_comm y x, max_comm y x] at h2
  have hkey : keyMatches (min x y) (max x y)
      (⟨min x y, max x y, 1, ab1, ab1, t1, t1⟩ : RelacionamentoPessoa) = true := by
    simp [keyMatches]
  have hmem1 : (⟨min x y, max x y, 1, ab1, ab1, t1, t1⟩ : RelacionamentoPessoa)
      ∈ db ++ [⟨min x y, max x y, 1, ab1, ab1, t1, t1⟩] :=
    List.mem_append_right _ (List.mem_singleton.mpr rfl)
  have hany : (db ++ ([⟨min x y, max x y, 1, ab1, ab1, t1, t1⟩] :
      List RelacionamentoPessoa)).any (keyMatches (min x y) (max x y)) = true :=
    List.any_eq_true.mpr ⟨_, hmem1, hkey⟩
  unfold RelacionamentoRepository.upsert at h2
  rw [min_eq_left (min_le_max (a := x) (b := y)),
    max_eq_right (min_le_max (a := x) (b := y)), if_pos hany] at h2
  obtain rfl := Option.some.inj h2
  refine ⟨_, List.mem_map_of_mem _ hmem1, ?_⟩
  simp [hkey]

/-- C3 witness: pair (2, 1) registered in event 100 at time 5, then as (1, 2)
in event 101 at time 9, yields the edge (1, 2) with weight 2, original first
event and updated last event. -/
theorem upsert_idempotent_increment_witness :
    ∃ e ∈ [(⟨1, 2, 2, 100, 101, 5, 9⟩ : RelacionamentoPessoa)],
      e.pessoa_id_a = min 2 1 ∧ e.pessoa_id_b = max 2 1 ∧
      e.frequencia = 2 ∧ e.primeira_abordagem_id = 100 ∧ e.primeira_vez = 5 ∧
      e.ultima_abordagem_id = 101 ∧ e.ultima_vez = 9 :=
  upsert_idempotent_increment [] [⟨1, 2, 1, 100, 100, 5, 5⟩] [⟨1, 2, 2, 100, 101, 5, 9⟩]
    2 1 100 5 101 9 (by decide) (by decide) (by decide) (by decide)

/-- Row of the `ocorrencias` table, restricted to the columns
`OcorrenciaRepository.search_semantic` reads
(`app/models/ocorrencia.py`, `app/repositories/ocorrencia_repo.py`).
The pgvector embedding column is nullable; vectors are lists of rationals. -/
structure Ocorrencia where
  id : Nat
  guarnicao_id : Nat
  numero_ocorrencia : String
  texto_extraido : Option String
  embedding : Option (List Rat)
  ativo : Bool
  processada : Bool
deriving DecidableEq, Repr

/-- Row of the `legislacoes` table, restricted to the columns
`LegislacaoRepository.search_semantic` reads (`app/models/legislacao.py`,
`app/repositories/legislacao_repo.py`).  Statutes carry no tenant column. -/
structure Legislacao where
  id : Nat
  lei : String
  artigo : String
  nome : Option String
  texto : String
  embedding : Option (List Rat)
  ativo : Bool
deriving DecidableEq, Repr

/-- The similarity expression `1 - column.cosine_distance(query)` of both
search queries.  The pgvector cosine-distance operator `<=>` is external to
the repository, so it enters the model as the abstract function `dist`
(first argument the stored vector, second the query vector). -/
def cosSimilarity (dist : List Rat → List Rat → Rat) (q v : List Rat) : Rat :=
  1 - dist v q

/-- Semantics of an SQL `ORDER BY key DESC LIMIT k` result over filtered rows:
some ordering `l` of the filtered rows that is non-increasing in the sort key
(SQL leaves the relative order of equal keys unspecified), truncated to the
first `k` rows, each returned together with its computed key, as the
`SELECT (row, similarity)` of both search queries does. -/
def orderedLimited {α : Type} (pass : α → Bool) (key : α → Rat) (k : Nat)
    (rows : List α) (res : List (α × Rat)) : Prop :=
  ∃ l : List α, l.Perm (rows.filter pass) ∧
    l.Pairwise (fun r1 r2 => key r2 ≤ key r1) ∧
    res = (l.take k).map (fun r => (r, key r))

namespace OcorrenciaRepository

/-- The `WHERE` clause of `OcorrenciaRepository.search_semantic`
(`app/repositories/ocorrencia_repo.py`, lines 62-70): tenant match, not
soft-deleted, processed, embedding present, and similarity at least the
threshold (an SQL comparison against a NULL embedding admits no row, which
coincides with the explicit `isnot(None)` filter). -/
def passesFilter (dist : List Rat → List Rat → Rat) (q : List Rat)
    (guarnicao_id : Nat) (threshold : Rat) (r : Ocorrencia) : Bool :=
  r.guarnicao_id == guarnicao_id && r.ativo && r.processada &&
    (match r.embedding with
     | none => false
     | some v => decide (threshold ≤ cosSimilarity dist q v))

/-- The sort key of `OcorrenciaRepository.search_semantic`: the similarity
of the stored embedding (rows that reach the ordering step always have one;
a missing embedding is read as the empty vector). -/
def rowSimilarity (dist : List Rat → List Rat → Rat) (q : List Rat)
    (r : Ocorrencia) : Rat :=
  cosSimilarity dist q (r.embedding.getD [])

/-- Result relation of `OcorrenciaRepository.search_semantic`
(`app/repositories/ocorrencia_repo.py`, lines 37-76): any sequence the
database may return for the query `SELECT (row, similarity) WHERE .. ORDER BY
similarity DESC LIMIT top_k` over the stored rows. -/
def search_semantic (dist : List Rat → List Rat → Rat) (q : List Rat)
    (guarnicao_id : Nat) (top_k : Nat) (threshold : Rat)
    (rows : List Ocorrencia) (res : List (Ocorrencia × Rat)) : Prop :=
  orderedLimited (passesFilter dist q guarnicao_id threshold)
    (rowSimilarity dist q) top_k rows res

end OcorrenciaRepository

namespace LegislacaoRepository

/-- The `WHERE` clause of `LegislacaoRepository.search_semantic`
(`app/repositories/legislacao_repo.py`, lines 60-69): active, embedding
present, similarity at least the threshold — and no tenant filter, statutes
being global data. -/
def passesFilter (dist : List Rat → List Rat → Rat) (q : List Rat)
    (threshold : Rat) (r : Legislacao) : Bool :=
  r.ativo &&
    (match r.embedding with
     | none => false
     | some v => decide (threshold ≤ cosSimilarity dist q v))

/-- The sort key of `LegislacaoRepository.search_semantic`. -/
def rowSimilarity (dist : List Rat → List Rat → Rat) (q : List Rat)
    (r : Legislacao) : Rat :=
  cosSimilarity dist q (r.embedding.getD [])

/-- Result relation of `LegislacaoRepository.search_semantic`
(`app/repositories/legislacao_repo.py`, lines 37-72). -/
def search_semantic (dist : List Rat → List Rat → Rat) (q : List Rat)
    (top_k : Nat) (threshold : Rat)
    (rows : List Legislacao) (res : List (Legislacao × Rat)) : Prop :=
  orderedLimited (passesFilter dist q threshold) (rowSimilarity dist q) top_k rows res

end LegislacaoRepository

/-- Every returned pair of an `ORDER BY .. DESC LIMIT` result is a filtered
row paired with its sort key. -/
theorem orderedLimited_mem {α : Type} {pass : α → Bool} {key : α → Rat} {k : Nat}
    {rows : List α} {res : List (α × Rat)} (h : orderedLimited pass key k rows res) :
    ∀ p ∈ res, p.1 ∈ rows ∧ pass p.1 = true ∧ p.2 = key p.1 := by
  obtain ⟨l, hperm, _, rfl⟩ := h
  intro p hp
  obtain ⟨r, hr, rfl⟩ := List.mem_map.mp hp
  have hrl : r ∈ l := List.mem_of_mem_take hr
  have hrf : r ∈ rows.filter pass := hperm.mem_iff.mp hrl
  exact ⟨List.mem_of_mem_filter hrf, List.of_mem_filter hrf, rfl⟩

/-- The similarity components of an `ORDER BY .. DESC LIMIT` result are
non-increasing. -/
theorem orderedLimited_sorted {α : Type} {pass : α → Bool} {key : α → Rat} {k : Nat}
    {rows : List α} {res : List (α × Rat)} (h : orderedLimited pass key k rows res) :
    res.Pairwise (fun p1 p2 => p2.2 ≤ p1.2) := by
  obtain ⟨l, _, hsort, rfl⟩ := h
  exact (List.pairwise_map).mpr ((hsort.sublist (List.take_sublist k l)))

/-- An `ORDER BY .. DESC LIMIT k` result has at most `k` rows, and is empty
whenever no row passes the filter. -/
theorem orderedLimited_length {α : Type} {pass : α → Bool} {key : α → Rat} {k : Nat}
    {rows : List α} {res : List (α × Rat)} (h : orderedLimited pass key k rows res) :
    res.length ≤ k ∧ (rows.filter pass = [] → res = []) := by
  obtain ⟨l, hperm, _, rfl⟩ := h
  constructor
  · rw [List.length_map]
    exact (List.length_take ..).le.trans (min_le_left ..)
  · intro hempty
    rw [hempty] at hperm
    rw [hperm.eq_nil]
    simp

/-- Characterization of the incident-search filter. -/
theorem ocorrencia_passes_iff {dist : List Rat → List Rat → Rat} {q : List Rat}
    {g : Nat} {th : Rat} {r : Ocorrencia} :
    OcorrenciaRepository.passesFilter dist q g th r = true ↔
      r.guarnicao_id = g ∧ r.ativo = true ∧ r.processada = true ∧
        ∃ v, r.embedding = some v ∧ th ≤ cosSimilarity dist q v := by
  unfold OcorrenciaRepository.passesFilter
  cases hemb : r.embedding with
  | none => simp [hemb]
  | some v => simp [hemb, Bool.and_eq_true, beq_iff_eq, and_assoc]

/-- Characterization of the statute-search filter. -/
theorem legislacao_passes_iff {dist : List Rat → List Rat → Rat} {q : List Rat}
    {th : Rat} {r : Legislacao} :
    LegislacaoRepository.passesFilter dist q th r = true ↔
      r.ativo = true ∧ ∃ v, r.embedding = some v ∧ th ≤ cosSimilarity dist q v := by
  unfold LegislacaoRepository.passesFilter
  cases hemb : r.embedding with
  | none => simp [hemb]
  | some v => simp [hemb, Bool.and_eq_true]

/-- C4.  Vector-search postcondition, for both corpora: every returned pair is
an active (and for incidents: processed, tenant-matching) record with a
stored embedding, its score is `1 - cosine_distance(stored, query)` and at
least the threshold, scores are non-increasing across the sequence, the
result has at most `top_k` entries, and zero matches yield the empty list. -/
theorem search_semantic_postcondition
    (dist : List Rat → List Rat → Rat) (q : List Rat) (guarnicao_id top_k legK : Nat)
    (threshold legTh : Rat) (ocRows : List Ocorrencia) (ocRes : List (Ocorrencia × Rat))
    (legRows : List Legislacao) (legRes : List (Legislacao × Rat))
    (hoc : OcorrenciaRepository.search_semantic dist q guarnicao_id top_k threshold
      ocRows ocRes)
    (hleg : LegislacaoRepository.search_semantic dist q legK legTh legRows legRes) :
    (∀ p ∈ ocRes, p.1.guarnicao_id = guarnicao_id ∧ p.1.ativo = true ∧
        p.1.processada = true ∧
        ∃ v, p.1.embedding = some v ∧ p.2 = 1 - dist v q ∧ threshold ≤ p.2) ∧
      ocRes.Pairwise (fun p1 p2 => p2.2 ≤ p1.2) ∧ ocRes.length ≤ top_k ∧
      (ocRows.filter (OcorrenciaRepository.passesFilter dist q guarnicao_id threshold) = [] →
        ocRes = []) ∧
      (∀ p ∈ legRes, p.1.ativo = true ∧
        ∃ v, p.1.embedding = some v ∧ p.2 = 1 - dist v q ∧ legTh ≤ p.2) ∧
      legRes.Pairwise (fun p1 p2 => p2.2 ≤ p1.2) ∧ legRes.length ≤ legK ∧
      (legRows.filter (LegislacaoRepository.passesFilter dist q legTh) = [] → legRes = []) := by
  refine ⟨?_, orderedLimited_sorted hoc, (orderedLimited_length hoc).1,
    (orderedLimited_length hoc).2, ?_, orderedLimited_sorted hleg,
    (orderedLimited_length hleg).1, (orderedLimited_length hleg).2⟩
  · intro p hp
    obtain ⟨_, hpass, hkey⟩ := orderedLimited_mem hoc p hp
    obtain ⟨hg, hat, hpr, v, hv, hth⟩ := ocorrencia_passes_iff.mp hpass
    refine ⟨hg, hat, hpr, v, hv, ?_, ?_⟩
    · rw [hkey]
      unfold OcorrenciaRepository.rowSimilarity
      rw [hv]
      rfl
    · rw [hkey]
      unfold OcorrenciaRepository.rowSimilarity
      rw [hv]
      exact hth
  · intro p hp
    obtain ⟨_, hpass, hkey⟩ := orderedLimited_mem hleg p hp
    obtain ⟨hat, v, hv, hth⟩ := legislacao_passes_iff.mp hpass
    refine ⟨hat, v, hv, ?_, ?_⟩
    · rw [hkey]
      unfold LegislacaoRepository.rowSimilarity
      rw [hv]
      rfl
    · rw [hkey]
      unfold LegislacaoRepository.rowSimilarity
      rw [hv]
      exact hth

/-- Concrete stand-in distance for witnesses: reads the stored vector's head,
so a stored vector `[d]` has similarity `1 - d`. -/
def distW : List Rat → List Rat → Rat := fun v _ => v.headD 0

/-- Witness incident row with similarity 1 under `distW`. -/
def ocA : Ocorrencia := ⟨1, 1, "2024.00001", some "texto A", some [0], true, true⟩

/-- Witness incident row with similarity 1/2 under `distW`. -/
def ocB : Ocorrencia := ⟨2, 1, "2024.00002", some "texto B", some [1/2], true, true⟩

/-- Witness incident row below the 0.3 threshold under `distW`. -/
def ocC : Ocorrencia := ⟨3, 1, "2024.00003", some "texto C", some [9/10], true, true⟩

/-- Witness incident row that is soft-deleted. -/
def ocD : Ocorrencia := ⟨4, 1, "2024.00004", some "texto D", some [0], false, true⟩

/-- Second witness incident row with similarity 1/2 under `distW`, tied
with `ocB`. -/
def ocE : Ocorrencia := ⟨5, 1, "2024.00005", some "texto E", some [1/2], true, true⟩

/-- Witness statute row with similarity 1 under `distW`. -/
def legA : Legislacao := ⟨1, "CP", "157", some "Roubo", "texto do artigo", some [0], true⟩


/-- Evaluation of the incident filter on the witness corpus. -/
theorem filter_witness_oc :
    List.filter (OcorrenciaRepository.passesFilter distW [] 1 (3/10))
      [ocA, ocB, ocC, ocD] = [ocA, ocB] := by
  norm_num [List.filter_cons, OcorrenciaRepository.passesFilter, cosSimilarity, distW,
    ocA, ocB, ocC, ocD]

/-- Evaluation of the statute filter on the witness corpus. -/
theorem filter_witness_leg :
    List.filter (LegislacaoRepository.passesFilter distW [] (3/10)) [legA] = [legA] := by
  norm_num [List.filter_cons, LegislacaoRepository.passesFilter, cosSimilarity, distW, legA]

/-- C4 witness: a four-row incident corpus and a one-row statute corpus with
concrete results satisfying every search postcondition. -/
theorem search_semantic_postcondition_witness :
    (∀ p ∈ [(ocA, (1 : Rat)), (ocB, 1/2)], p.1.guarnicao_id = 1 ∧ p.1.ativo = true ∧
        p.1.processada = true ∧
        ∃ v, p.1.embedding = some v ∧ p.2 = 1 - distW v [] ∧ (3/10 : Rat) ≤ p.2) ∧
      ([(ocA, (1 : Rat)), (ocB, 1/2)]).Pairwise (fun p1 p2 => p2.2 ≤ p1.2) ∧
      ([(ocA, (1 : Rat)), (ocB, 1/2)]).length ≤ 5 ∧
      ([ocA, ocB, ocC, ocD].filter
          (OcorrenciaRepository.passesFilter distW [] 1 (3/10)) = [] →
        [(ocA, (1 : Rat)), (ocB, 1/2)] = []) ∧
      (∀ p ∈ [(legA, (1 : Rat))], p.1.ativo = true ∧
        ∃ v, p.1.embedding = some v ∧ p.2 = 1 - distW v [] ∧ (3/10 : Rat) ≤ p.2) ∧
      ([(legA, (1 : Rat))]).Pairwise (fun p1 p2 => p2.2 ≤ p1.2) ∧
      ([(legA, (1 : Rat))]).length ≤ 3 ∧
      ([legA].filter (LegislacaoRepository.passesFilter distW [] (3/10)) = [] →
        [(legA, (1 : Rat))] = []) :=
  search_semantic_postcondition distW [] 1 5 3 (3/10) (3/10)
    [ocA, ocB, ocC, ocD] [(ocA, 1), (ocB, 1/2)] [legA] [(legA, 1)]
    ⟨[ocA, ocB], by rw [filter_witness_oc],
      by norm_num [List.pairwise_cons, OcorrenciaRepository.rowSimilarity, cosSimilarity,
        distW, ocA, ocB],
      by norm_num [OcorrenciaRepository.rowSimilarity, cosSimilarity, distW, ocA, ocB]⟩
    ⟨[legA], by rw [filter_witness_leg],
      by norm_num [List.pairwise_cons],
      by norm_num [LegislacaoRepository.rowSimilarity, cosSimilarity, distW, legA]⟩

/-- Evaluation of the incident filter on the tied two-row corpus. -/
theorem filter_witness_tie :
    List.filter (OcorrenciaRepository.passesFilter distW [] 1 (3/10)) [ocB, ocE]
      = [ocB, ocE] := by
  norm_num [List.filter_cons, OcorrenciaRepository.passesFilter, cosSimilarity, distW,
    ocB, ocE]

/-- C5 counterexample: with two stored incidents of equal similarity and no
secondary sort key in the query, both orders of the tied rows are valid
answers of `search_semantic` for the same corpus, query, `top_k` and
threshold, so the search result is not determined by its inputs. -/
theorem search_semantic_tie_not_deterministic :
    OcorrenciaRepository.search_semantic distW [] 1 5 (3/10) [ocB, ocE]
      [(ocB, 1/2), (ocE, 1/2)] ∧
    OcorrenciaRepository.search_semantic distW [] 1 5 (3/10) [ocB, ocE]
      [(ocE, 1/2), (ocB, 1/2)] ∧
    [(ocB, (1/2 : Rat)), (ocE, 1/2)] ≠ [(ocE, 1/2), (ocB, 1/2)] :=
  ⟨⟨[ocB, ocE], by rw [filter_witness_tie],
     by norm_num [List.pairwise_cons, OcorrenciaRepository.rowSimilarity, cosSimilarity,
       distW, ocB, ocE],
     by norm_num [OcorrenciaRepository.rowSimilarity, cosSimilarity, distW, ocB, ocE]⟩,
   ⟨[ocE, ocB], by rw [filter_witness_tie]; exact List.Perm.swap ocB ocE [],
     by norm_num [List.pairwise_cons, OcorrenciaRepository.rowSimilarity, cosSimilarity,
       distW, ocB, ocE],
     by norm_num [OcorrenciaRepository.rowSimilarity, cosSimilarity, distW, ocB, ocE]⟩,
   by simp [ocB, ocE]⟩

/-- Two orderings of the same multiset, both non-increasing in a key that is
pairwise distinct across the elements, coincide. -/
theorem sorted_perm_eq_of_key_distinct {α : Type} (key : α → Rat) :
    ∀ {l1 l2 : List α}, l1.Perm l2 →
      l1.Pairwise (fun a b => key b ≤ key a) →
      l2.Pairwise (fun a b => key b ≤ key a) →
      l1.Pairwise (fun a b => key a ≠ key b) → l1 = l2 := by
  intro l1
  induction l1 with
  | nil =>
    intro l2 hperm _ _ _
    exact (hperm.symm.eq_nil).symm
  | cons a t ih =>
    intro l2 hperm hs1 hs2 hd
    cases l2 with
    | nil => exact absurd hperm.eq_nil (by simp)
    | cons b t2 =>
      rw [List.pairwise_cons] at hs1 hs2 hd
      by_cases hab : a = b
      · subst hab
        rw [ih hperm.cons_inv hs1.2 hs2.2 hd.2]
      · have ha2 : a ∈ b :: t2 := hperm.mem_iff.mp (List.mem_cons_self a t)
        have hb1 : b ∈ a :: t := hperm.mem_iff.mpr (List.mem_cons_self b t2)
        have ha2' : a ∈ t2 := by
          rcases List.mem_cons.mp ha2 with h | h
          · exact absurd h hab
          · exact h
        have hb1' : b ∈ t := by
          rcases List.mem_cons.mp hb1 with h | h
          · exact absurd h.symm hab
          · exact h
        exact absurd (le_antisymm (hs2.1 a ha2') (hs1.1 b hb1')) (hd.1 b hb1')

/-- When the sort key is pairwise distinct over the filtered rows, the
`ORDER BY .. DESC LIMIT` result is unique. -/
theorem orderedLimited_deterministic {α : Type} {pass : α → Bool} {key : α → Rat}
    {k : Nat} {rows : List α} {res1 res2 : List (α × Rat)}
    (hd : (rows.filter pass).Pairwise (fun a b => key a ≠ key b))
    (h1 : orderedLimited pass key k rows res1)
    (h2 : orderedLimited pass key k rows res2) : res1 = res2 := by
  obtain ⟨l1, hp1, hs1, rfl⟩ := h1
  obtain ⟨l2, hp2, hs2, rfl⟩ := h2
  have hd1 : l1.Pairwise (fun a b => key a ≠ key b) :=
    (hp1.pairwise_iff (fun h => h.symm)).mpr hd
  rw [sorted_perm_eq_of_key_distinct key (hp1.trans hp2.symm) hs1 hs2 hd1]

/-- C5 (amended).  Tie-break determinism holds exactly in the absence of
ties: when all filtered rows have pairwise-distinct similarities, either
search admits a unique result sequence; among equal similarities the query
issues no secondary sort key, so the order of tied rows (and, at a `top_k`
boundary, the choice among them) is left to the database. -/
theorem search_semantic_deterministic_of_distinct
    (dist : List Rat → List Rat → Rat) (q : List Rat) (guarnicao_id top_k legK : Nat)
    (threshold legTh : Rat) (ocRows : List Ocorrencia)
    (ocRes1 ocRes2 : List (Ocorrencia × Rat)) (legRows : List Legislacao)
    (legRes1 legRes2 : List (Legislacao × Rat))
    (hocd : (ocRows.filter (OcorrenciaRepository.passesFilter dist q guarnicao_id
        threshold)).Pairwise (fun r1 r2 => OcorrenciaRepository.rowSimilarity dist q r1 ≠
        OcorrenciaRepository.rowSimilarity dist q r2))
    (hlegd : (legRows.filter (LegislacaoRepository.passesFilter dist q
        legTh)).Pairwise (fun r1 r2 => LegislacaoRepository.rowSimilarity dist q r1 ≠
        LegislacaoRepository.rowSimilarity dist q r2))
    (h1 : OcorrenciaRepository.search_semantic dist q guarnicao_id top_k threshold
      ocRows ocRes1)
    (h2 : OcorrenciaRepository.search_semantic dist q guarnicao_id top_k threshold
      ocRows ocRes2)
    (h3 : LegislacaoRepository.search_semantic dist q legK legTh legRows legRes1)
    (h4 : LegislacaoRepository.search_semantic dist q legK legTh legRows legRes2) :
    ocRes1 = ocRes2 ∧ legRes1 = legRes2 :=
  ⟨orderedLimited_deterministic hocd h1 h2, orderedLimited_deterministic hlegd h3 h4⟩

/-- C5 witness: on a corpus with pairwise-distinct similarities the valid
answers of both searches are forced to coincide. -/
theorem search_semantic_deterministic_of_distinct_witness :
    [(ocA, (1 : Rat)), (ocB, 1/2)] = [(ocA, (1 : Rat)), (ocB, 1/2)] ∧
      [(legA, (1 : Rat))] = [(legA, (1 : Rat))] :=
  search_semantic_deterministic_of_distinct distW [] 1 5 3 (3/10) (3/10)
    [ocA, ocB, ocC, ocD] [(ocA, 1), (ocB, 1/2)] [(ocA, 1), (ocB, 1/2)]
    [legA] [(legA, 1)] [(legA, 1)]
    (by rw [filter_witness_oc]
        norm_num [List.pairwise_cons, OcorrenciaRepository.rowSimilarity, cosSimilarity,
          distW, ocA, ocB])
    (by rw [filter_witness_leg]
        norm_num [List.pairwise_cons])
    ⟨[ocA, ocB], by rw [filter_witness_oc],
      by norm_num [List.pairwise_cons, OcorrenciaRepository.rowSimilarity, cosSimilarity,
        distW, ocA, ocB],
      by norm_num [OcorrenciaRepository.rowSimilarity, cosSimilarity, distW, ocA, ocB]⟩
    ⟨[ocA, ocB], by rw [filter_witness_oc],
      by norm_num [List.pairwise_cons, OcorrenciaRepository.rowSimilarity, cosSimilarity,
        distW, ocA, ocB],
      by norm_num [OcorrenciaRepository.rowSimilarity, cosSimilarity, distW, ocA, ocB]⟩
    ⟨[legA], by rw [filter_witness_leg],
      by norm_num [List.pairwise_cons],
      by norm_num [LegislacaoRepository.rowSimilarity, cosSimilarity, distW, legA]⟩
    ⟨[legA], by rw [filter_witness_leg],
      by norm_num [List.pairwise_cons],
      by norm_num [LegislacaoRepository.rowSimilarity, cosSimilarity, distW, legA]⟩

/-- State of the Redis embedding cache as `gerar_embedding_cached` sees it:
whether the read round-trip succeeds, whether the write round-trip succeeds,
and the stored key/value pairs (values are the JSON round-trip of embedding
vectors, which is the identity on the modelled `List Rat`). -/
structure RedisState where
  readOk : Bool
  writeOk : Bool
  store : List (String × List Rat)
deriving DecidableEq, Repr

/-- Lookup of a cache key in the Redis store (`redis_client.get`). -/
def storeLookup (store : List (String × List Rat)) (k : String) : Option (List Rat) :=
  (store.find? (fun e => e.1 == k)).map (fun e => e.2)

namespace EmbeddingService

/-- The cache key of `EmbeddingService.gerar_embedding_cached`
(`app/services/embedding_service.py`, line 93):
`"emb:" + md5(texto.encode()).hexdigest()`.  The MD5 hex digest is external;
it enters the model as the abstract function `md5hex`.  The hashed input is
the raw `texto`, with no trimming. -/
def cache_key (md5hex : String → String) (texto : String) : String :=
  "emb:" ++ md5hex texto

/-- Embedding of `EmbeddingService.gerar_embedding_cached`
(`app/services/embedding_service.py`, lines 80-114).  `embed` is the
provider's raw `gerar_embedding`.  A failing read (`except` around
`redis_client.get`) is logged, sets `redis_client = None`, and skips the
write; a cache hit returns the stored vector; a miss computes the embedding
and, when the client is live, attempts the write, whose failure is also
swallowed.  The function is total: no cache outcome raises. -/
def gerar_embedding_cached (md5hex : String → String) (embed : String → List Rat)
    (redis : RedisState) (texto : String) : List Rat × RedisState :=
  if redis.readOk then
    match storeLookup redis.store (cache_key md5hex texto) with
    | some cached => (cached, redis)
    | none =>
      if redis.writeOk then
        (embed texto,
          { redis with store := (cache_key md5hex texto, embed texto) :: redis.store })
      else
        (embed texto, redis)
  else
    (embed texto, redis)

end EmbeddingService

/-- Whitespace-stripping of a character list from both ends, the semantics
of Python's `str.strip()` (the "trimming" the specification refers to). -/
def stripChars (l : List Char) : List Char :=
  (((l.dropWhile Char.isWhitespace).reverse).dropWhile Char.isWhitespace).reverse

/-- Python's `texto.strip()` on the modelled strings. -/
def pythonStrip (s : String) : String :=
  ⟨stripChars s.data⟩

/-- C6 counterexample: the cache key hashes the raw text, not the trimmed
text — instantiating the abstract digest with an injective function (the
identity), the inputs `" a"` and `"a"` are equal after trimming yet receive
different cache keys, because line 93 feeds `texto.encode()` to MD5 without
stripping. -/
theorem cache_key_not_trimmed :
    pythonStrip " a" = pythonStrip "a" ∧
      EmbeddingService.cache_key (fun s => s) " a" ≠
        EmbeddingService.cache_key (fun s => s) "a" := by
  constructor
  · decide
  · unfold EmbeddingService.cache_key
    decide

/-- C6 (amended).  The cache key is `"emb:"` followed by the digest of the
raw, untrimmed input text, so byte-identical inputs share a cache entry: on
a healthy cache, a first call with `t1` misses and stores under the key of
`t1`, and a second call with `t2 = t1` hits that entry, returning the stored
vector and leaving the cache untouched. -/
theorem cache_key_raw_text (md5hex : String → String) (embed : String → List Rat)
    (redis : RedisState) (t1 t2 : String)
    (hread : redis.readOk = true) (hwrite : redis.writeOk = true)
    (hmiss : storeLookup redis.store (EmbeddingService.cache_key md5hex t1) = none)
    (heq : t1 = t2) :
    EmbeddingService.cache_key md5hex t1 = "emb:" ++ md5hex t1 ∧
      EmbeddingService.gerar_embedding_cached md5hex embed redis t1 =
        (embed t1, { redis with
          store := (EmbeddingService.cache_key md5hex t1, embed t1) :: redis.store }) ∧
      EmbeddingService.gerar_embedding_cached md5hex embed
          (EmbeddingService.gerar_embedding_cached md5hex embed redis t1).2 t2 =
        (embed t1, (EmbeddingService.gerar_embedding_cached md5hex embed redis t1).2) := by
  subst heq
  have h1 : EmbeddingService.gerar_embedding_cached md5hex embed redis t1 =
      (embed t1, { redis with
        store := (EmbeddingService.cache_key md5hex t1, embed t1) :: redis.store }) := by
    unfold EmbeddingService.gerar_embedding_cached
    rw [if_pos hread, hmiss]
    rw [if_pos hwrite]
  refine ⟨rfl, h1, ?_⟩
  rw [h1]
  unfold EmbeddingService.gerar_embedding_cached
  rw [if_pos hread]
  unfold storeLookup
  simp [List.find?]

/-- C6 amended-claim witness: concrete healthy cache, identity digest, one
miss then one hit on the identical text. -/
theorem cache_key_raw_text_witness :
    EmbeddingService.cache_key (fun s => s) "abc" = "emb:" ++ "abc" ∧
      EmbeddingService.gerar_embedding_cached (fun s => s) (fun _ => [1]) ⟨true, true, []⟩
          "abc" =
        ([1], ⟨true, true, [(EmbeddingService.cache_key (fun s => s) "abc", [1])]⟩) ∧
      EmbeddingService.gerar_embedding_cached (fun s => s) (fun _ => [1])
          (EmbeddingService.gerar_embedding_cached (fun s => s) (fun _ => [1])
            ⟨true, true, []⟩ "abc").2 "abc" =
        ([1], (EmbeddingService.gerar_embedding_cached (fun s => s) (fun _ => [1])
          ⟨true, true, []⟩ "abc").2) :=
  cache_key_raw_text (fun s => s) (fun _ => [1]) ⟨true, true, []⟩ "abc" "abc"
    rfl rfl rfl rfl

/-- C8.  Cache failure transparency: when the cache read round-trip fails,
`gerar_embedding_cached` falls back to direct computation, returns exactly
the provider's raw embedding, and attempts no write; when the read succeeds
but misses and the write fails, the write failure is swallowed and the raw
embedding is returned as well.  The model is a total function, so no cache
outcome raises to the caller. -/
theorem gerar_embedding_cached_fallback (md5hex : String → String)
    (embed : String → List Rat) (redis : RedisState) (texto : String)
    (hfail : redis.readOk = false) :
    EmbeddingService.gerar_embedding_cached md5hex embed redis texto =
        (embed texto, redis) ∧
      ∀ r2 : RedisState, r2.readOk = true → r2.writeOk = false →
        storeLookup r2.store (EmbeddingService.cache_key md5hex texto) = none →
        EmbeddingService.gerar_embedding_cached md5hex embed r2 texto =
          (embed texto, r2) := by
  constructor
  · unfold EmbeddingService.gerar_embedding_cached
    rw [hfail]
    rfl
  · intro r2 hr hw hm
    unfold EmbeddingService.gerar_embedding_cached
    rw [if_pos hr, hm, if_neg (by rw [hw]; exact Bool.false_ne_true)]

/-- C8 witness: an unreachable cache backend (failed read) on a concrete
input returns the raw embedding, and a healthy read with failed write does
the same. -/
theorem gerar_embedding_cached_fallback_witness :
    EmbeddingService.gerar_embedding_cached (fun s => s) (fun _ => [2])
        ⟨false, true, [("emb:abc", [9])]⟩ "abc" =
        ([2], ⟨false, true, [("emb:abc", [9])]⟩) ∧
      ∀ r2 : RedisState, r2.readOk = true → r2.writeOk = false →
        storeLookup r2.store (EmbeddingService.cache_key (fun s => s) "abc") = none →
        EmbeddingService.gerar_embedding_cached (fun s => s) (fun _ => [2]) r2 "abc" =
          ([2], r2) :=
  gerar_embedding_cached_fallback (fun s => s) (fun _ => [2])
    ⟨false, true, [("emb:abc", [9])]⟩ "abc" rfl

/-- The configuration slice `LLMService` reads (`app/config.py`):
the selected generation provider. -/
structure LLMSettings where
  LLM_PROVIDER : String
deriving DecidableEq, Repr

/-- The state `LLMService.__init__` builds (`app/services/llm_service.py`,
lines 30-32): it copies `settings.LLM_PROVIDER` and performs no validation,
so construction succeeds for every provider string. -/
structure LLMService where
  provider : String
deriving DecidableEq, Repr

/-- Outcome of a `gerar` call: generated text, or the raised
`LLMIndisponivelError` with its message. -/
inductive GerarOutcome
  | text (s : String)
  | llmIndisponivelError (msg : String)
deriving DecidableEq, Repr

/-- Embedding of `LLMService.__init__`
(`app/services/llm_service.py`, lines 30-32). -/
def LLMService.init (settings : LLMSettings) : LLMService :=
  { provider := settings.LLM_PROVIDER }

/-- Embedding of `LLMService.gerar` (`app/services/llm_service.py`, lines
34-60).  The two HTTP transports (`_gerar_anthropic`, `_gerar_ollama`) are
external effects, modelled as functions from (prompt, system) to `some`
generated text or `none` for any transport error or non-success status; both
private methods map every failure to `LLMIndisponivelError`.  A provider
outside {"anthropic", "ollama"} falls through to
`raise LLMIndisponivelError(f"Provedor LLM não suportado: {provider}")`. -/
def LLMService.gerar (svc : LLMService)
    (anthropicHttp : String → String → Nat → Option String)
    (ollamaHttp : String → String → Option String)
    (prompt system : String) (max_tokens : Nat) : GerarOutcome :=
  if svc.provider = "anthropic" then
    match anthropicHttp prompt system max_tokens with
    | some t => .text t
    | none => .llmIndisponivelError "Não foi possível conectar à API Anthropic"
  else if svc.provider = "ollama" then
    match ollamaHttp prompt system with
    | some t => .text t
    | none => .llmIndisponivelError "Servidor Ollama indisponível"
  else
    .llmIndisponivelError ("Provedor LLM não suportado: " ++ svc.provider)

/-- C7 counterexample: selecting the unknown provider `"gemini"` raises no
error at gateway construction — `LLMService.init` succeeds and returns a
service carrying the bad provider — and the configuration error surfaces
only at the first `gerar` call, as an `LLMIndisponivelError`, even with
both transports healthy. -/
theorem llm_unknown_provider_not_eager :
    LLMService.init ⟨"gemini"⟩ = ⟨"gemini"⟩ ∧
      LLMService.gerar (LLMService.init ⟨"gemini"⟩)
          (fun _ _ _ => some "ok") (fun _ _ => some "ok") "p" "s" 2000 =
        .llmIndisponivelError ("Provedor LLM não suportado: " ++ "gemini") := by
  constructor
  · rfl
  · decide

/-- C7 (amended).  Unknown-provider detection is lazy, not eager:
`LLMService` construction always succeeds, copying the configured provider
unchanged, and every `gerar` call with a provider outside
{"anthropic", "ollama"} raises `LLMIndisponivelError` naming the provider,
regardless of the transports, prompt, or token bound. -/
theorem llm_unknown_provider_error_on_gerar (settings : LLMSettings)
    (hA : settings.LLM_PROVIDER ≠ "anthropic") (hO : settings.LLM_PROVIDER ≠ "ollama")
    (anthropicHttp : String → String → Nat → Option String)
    (ollamaHttp : String → String → Option String)
    (prompt system : String) (max_tokens : Nat) :
    LLMService.init settings = { provider := settings.LLM_PROVIDER } ∧
      LLMService.gerar (LLMService.init settings) anthropicHttp ollamaHttp
          prompt system max_tokens =
        .llmIndisponivelError ("Provedor LLM não suportado: " ++ settings.LLM_PROVIDER) := by
  refine ⟨rfl, ?_⟩
  unfold LLMService.gerar LLMService.init
  rw [if_neg hA, if_neg hO]

/-- C7 amended-claim witness: the provider `"gemini"` is neither
`"anthropic"` nor `"ollama"`; construction succeeds and the first `gerar`
raises the unsupported-provider error. -/
theorem llm_unknown_provider_error_on_gerar_witness :
    LLMService.init ⟨"gemini"⟩ = { provider := "gemini" } ∧
      LLMService.gerar (LLMService.init ⟨"gemini"⟩)
          (fun _ _ _ => some "ok") (fun _ _ => some "ok") "p" "s" 2000 =
        .llmIndisponivelError ("Provedor LLM não suportado: " ++ "gemini") :=
  llm_unknown_provider_error_on_gerar ⟨"gemini"⟩ (by decide) (by decide)
    (fun _ _ _ => some "ok") (fun _ _ => some "ok") "p" "s" 2000

/-- An entry of the incident-context list built by `RAGService.buscar_contexto`:
the record and its (rounded) similarity score. -/
structure OcorrenciaCtx where
  ocorrencia : Ocorrencia
  similaridade : Rat
deriving DecidableEq, Repr

/-- An entry of the statute-context list built by `RAGService.buscar_legislacao`. -/
structure LegislacaoCtx where
  legislacao : Legislacao
  similaridade : Rat
deriving DecidableEq, Repr

namespace RAGService

/-- One incident line of the prompt (`app/services/rag_service.py`, line 318):
`f"- BO {numero} (similaridade: {sim}): {texto}"` with the extracted text
defaulting to `""` and truncated to 500 characters.  Numeric rendering of the
score is abstracted by `toString`. -/
def ocorrenciaLine (item : OcorrenciaCtx) : String :=
  "- BO " ++ item.ocorrencia.numero_ocorrencia ++ " (similaridade: " ++
    toString item.similaridade ++ "): " ++
    ((item.ocorrencia.texto_extraido.getD "").take 500)

/-- One statute line of the prompt (`app/services/rag_service.py`, lines
327-330), with `leg.nome or 'sem nome'` (Python truthiness: `None` and the
empty string both fall back) and the text truncated to 300 characters. -/
def legislacaoLine (item : LegislacaoCtx) : String :=
  "- " ++ item.legislacao.lei ++ " Art. " ++ item.legislacao.artigo ++ " (" ++
    (match item.legislacao.nome with
     | none => "sem nome"
     | some s => if s.isEmpty then "sem nome" else s) ++
    ", similaridade: " ++ toString item.similaridade ++ "): " ++
    item.legislacao.texto.take 300

/-- The fixed closing task section of every prompt
(`app/services/rag_service.py`, lines 337-340). -/
def tarefaSection : String :=
  "## Tarefa\nGere um relatório operacional estruturado com base EXCLUSIVAMENTE nos dados acima."

/-- The section list built by `RAGService._montar_prompt`
(`app/services/rag_service.py`, lines 285-342): the subject header always;
the incident-evidence section only when `ocorrencias_ctx` is non-empty (Python
truthiness of the list); the statute-evidence section only when
`legislacao_ctx` is non-empty; the user instruction only when non-empty; and
the fixed task section always. -/
def montar_prompt_sections (abordagem_id : Nat) (descricao : String)
    (ocorrencias_ctx : List OcorrenciaCtx) (legislacao_ctx : List LegislacaoCtx)
    (instrucao : String) : List String :=
  let s0 := ["## Abordagem #" ++ toString abordagem_id ++ "\n" ++ descricao]
  let s1 := if ocorrencias_ctx.isEmpty then s0 else
    s0 ++ [String.intercalate "\n"
      ("## Ocorrências Similares" :: ocorrencias_ctx.map ocorrenciaLine)]
  let s2 := if legislacao_ctx.isEmpty then s1 else
    s1 ++ [String.intercalate "\n"
      ("## Legislação Aplicável" :: legislacao_ctx.map legislacaoLine)]
  let s3 := if instrucao.isEmpty then s2 else
    s2 ++ ["## Instrução Adicional\n" ++ instrucao]
  s3 ++ [tarefaSection]

/-- Embedding of `RAGService._montar_prompt`: the sections joined by blank
lines (`"\n\n".join(sections)`). -/
def montar_prompt (abordagem_id : Nat) (descricao : String)
    (ocorrencias_ctx : List OcorrenciaCtx) (legislacao_ctx : List LegislacaoCtx)
    (instrucao : String) : String :=
  String.intercalate "\n\n"
    (montar_prompt_sections abordagem_id descricao ocorrencias_ctx legislacao_ctx instrucao)

end RAGService

/-- C9.  Grounding non-fabrication for empty evidence: with zero retrieved
incidents and zero retrieved statutes the assembled prompt consists of
exactly the subject-description section, the optional user instruction, and
the fixed task section — the incident-evidence and statute-evidence sections
are omitted entirely rather than filled with placeholder content, while the
subject description and the task instruction remain present. -/
theorem montar_prompt_empty_evidence (abordagem_id : Nat) (descricao instrucao : String) :
    RAGService.montar_prompt_sections abordagem_id descricao [] [] instrucao =
        ["## Abordagem #" ++ toString abordagem_id ++ "\n" ++ descricao] ++
          (if instrucao.isEmpty then [] else ["## Instrução Adicional\n" ++ instrucao]) ++
          [RAGService.tarefaSection] ∧
      RAGService.montar_prompt abordagem_id descricao [] [] instrucao =
        String.intercalate "\n\n"
          (["## Abordagem #" ++ toString abordagem_id ++ "\n" ++ descricao] ++
            (if instrucao.isEmpty then [] else ["## Instrução Adicional\n" ++ instrucao]) ++
            [RAGService.tarefaSection]) := by
  have h : RAGService.montar_prompt_sections abordagem_id descricao [] [] instrucao =
      ["## Abordagem #" ++ toString abordagem_id ++ "\n" ++ descricao] ++
        (if instrucao.isEmpty then [] else ["## Instrução Adicional\n" ++ instrucao]) ++
        [RAGService.tarefaSection] := by
    cases hi : instrucao.isEmpty <;>
      simp [RAGService.montar_prompt_sections, hi]
  exact ⟨h, by rw [RAGService.montar_prompt, h]⟩

example :
    RAGService.montar_prompt_sections 7 "Pessoa abordada: A" [] [] "" =
      ["## Abordagem #7\nPessoa abordada: A", RAGService.tarefaSection] := by
  decide

/-- Row of the `abordagens` table, restricted to the columns
`RAGService._carregar_abordagem` filters on: primary key, tenant
(`guarnicao_id`) and the soft-delete flag `ativo`. -/
structure Abordagem where
  id : Nat
  guarnicao_id : Nat
  ativo : Bool
deriving DecidableEq, Repr

/-- Errors of the report pipeline: the `NaoEncontradoError` raised by
`_carregar_abordagem` (carrying its message argument), and the
`LLMIndisponivelError` raised further down by the generation step. -/
inductive RagError
  | naoEncontradoError (recurso : String)
  | llmIndisponivelError (msg : String)
deriving DecidableEq, Repr

namespace RAGService

/-- Embedding of `RAGService._carregar_abordagem`
(`app/services/rag_service.py`, lines 217-251): select the event whose id,
tenant and `ativo = True` all match (`scalar_one_or_none` over the primary
key yields at most one row, modelled by `find?`); when no row qualifies,
raise `NaoEncontradoError("Abordagem não encontrada")`. -/
def carregar_abordagem (db : List Abordagem) (abordagem_id guarnicao_id : Nat) :
    Except RagError Abordagem :=
  match db.find? (fun a => a.id == abordagem_id && a.guarnicao_id == guarnicao_id &&
      a.ativo) with
  | some a => .ok a
  | none => .error (.naoEncontradoError "Abordagem não encontrada")

/-- Step 1 of `RAGService.gerar_relatorio` (`app/services/rag_service.py`,
lines 150-153): load the subject event; an exception there aborts the
pipeline before retrieval, prompt assembly and generation, which are
abstracted as the continuation `rest`. -/
def gerar_relatorio_load {ρ : Type} (db : List Abordagem)
    (abordagem_id guarnicao_id : Nat) (rest : Abordagem → Except RagError ρ) :
    Except RagError ρ :=
  (carregar_abordagem db abordagem_id guarnicao_id).bind rest

end RAGService

/-- C10.  A soft-deleted subject is not found: when the requested event
exists and belongs to the requesting tenant but every such row has
`ativo = False`, `_carregar_abordagem` raises the same
`NaoEncontradoError` as for an absent subject or tenant mismatch, and the
report pipeline never reaches retrieval or generation, whatever those later
stages would do. -/
theorem soft_deleted_abordagem_not_found (db : List Abordagem)
    (abordagem_id guarnicao_id : Nat) (a : Abordagem)
    (ha : a ∈ db) (haid : a.id = abordagem_id) (hag : a.guarnicao_id = guarnicao_id)
    (hdel : a.ativo = false)
    (hall : ∀ b ∈ db, b.id = abordagem_id → b.guarnicao_id = guarnicao_id →
      b.ativo = false) :
    RAGService.carregar_abordagem db abordagem_id guarnicao_id =
        .error (.naoEncontradoError "Abordagem não encontrada") ∧
      ∀ (ρ : Type) (rest : Abordagem → Except RagError ρ),
        RAGService.gerar_relatorio_load db abordagem_id guarnicao_id rest =
          .error (.naoEncontradoError "Abordagem não encontrada") := by
  have hfind : db.find? (fun b => b.id == abordagem_id &&
      b.guarnicao_id == guarnicao_id && b.ativo) = none := by
    rw [List.find?_eq_none]
    intro b hb
    simp only [Bool.and_eq_true, beq_iff_eq, not_and]
    intro hid hg
    rw [hall b hb hid.1 hid.2] at hg
    exact Bool.false_ne_true hg
  have hload : RAGService.carregar_abordagem db abordagem_id guarnicao_id =
      .error (.naoEncontradoError "Abordagem não encontrada") := by
    unfold RAGService.carregar_abordagem
    rw [hfind]
  exact ⟨hload, fun ρ rest => by
    unfold RAGService.gerar_relatorio_load
    rw [hload]
    rfl⟩

/-- C10 witness: a one-row table whose only row matches the requested id and
tenant but is soft-deleted; loading it errors and the pipeline aborts. -/
theorem soft_deleted_abordagem_not_found_witness :
    RAGService.carregar_abordagem [⟨10, 3, false⟩] 10 3 =
        .error (.naoEncontradoError "Abordagem não encontrada") ∧
      ∀ (ρ : Type) (rest : Abordagem → Except RagError ρ),
        RAGService.gerar_relatorio_load [⟨10, 3, false⟩] 10 3 rest =
          .error (.naoEncontradoError "Abordagem não encontrada") :=
  soft_deleted_abordagem_not_found [⟨10, 3, false⟩] 10 3 ⟨10, 3, false⟩
    (List.mem_singleton.mpr rfl) rfl rfl rfl (by decide)
